import Mathlib

/-
  Verification development for the stellar/friendbot funding dispatcher.

  Shallow embedding of the core of the repository:
  - internal/account.go     : Account, IncrementSequenceNumber, RefreshSequenceNumber
  - internal/minion.go      : Minion, Run, SubmitTransaction, CheckSequenceRefresh,
                              CheckAccountExists, checkHandleBadSequence, checkBalance,
                              makeTx / makeCreateTx / makePaymentTx
  - internal/friendbot.go   : Bot, Pay (round-robin worker selection)
  - init_friendbot.go       : createMinionAccounts (pool bootstrap)
  - internal/rpcnetworkclient/client.go : SubmitTransaction / pollTransactionStatus
  - internal/network_client.go : NetworkClient and NetworkError interfaces

  Network interactions are modelled by a response oracle (NetworkClient below);
  every call the code makes to the oracle is additionally recorded in an event
  trace so that theorems can speak about which ledger operations a code path
  performs and in which order.  Go int64 values are modelled as unbounded Int;
  none of the claims proved here depends on wrap-around at 2^63, and the one
  place the Go code performs an explicit int64 range check (amount parsing)
  carries that check over explicitly.
-/

namespace Friendbot

/-- Amounts in stellar/go (package amount) are fixed-point values with 7
decimal places; amount.One = 10^7 stroops. -/
def amountOne : Int := 10000000

/-- Value of a list of decimal digit characters, most significant first. -/
def digitsToNat (s : List Char) : Nat :=
  s.foldl (fun acc c => acc * 10 + (c.toNat - 48)) 0

/-- Splits a character list at the first decimal point; fails when more than
one decimal point occurs. -/
def splitDot : List Char → Option (List Char × List Char)
  | [] => some ([], [])
  | '.' :: rest => if rest.contains '.' then none else some ([], rest)
  | c :: rest =>
    match splitDot rest with
    | none => none
    | some (ip, fp) => some (c :: ip, fp)

/-- Embedding of amount.ParseInt64 from stellar/go for plain decimal strings
(optional sign, integer digits, optional fractional digits): the string is read
as an exact rational, multiplied by 10^7, required to be an integer, and
required to fit in an int64.  The Go implementation goes through big.Rat and so
would additionally accept exotic spellings (exponents, fractions p/q); those
never occur as balances and are outside this model. -/
def parseInt64 (v : String) : Option Int :=
  let cs := v.data
  let signed : Bool × List Char :=
    match cs with
    | '-' :: rest => (true, rest)
    | '+' :: rest => (false, rest)
    | _ => (false, cs)
  match splitDot signed.2 with
  | none => none
  | some (ip, fp) =>
    if (ip.all Char.isDigit && fp.all Char.isDigit) && !(ip.isEmpty && fp.isEmpty) then
      let n : Nat := digitsToNat (ip ++ fp)
      let L : Nat := fp.length
      let scaled : Option Nat :=
        if L ≤ 7 then some (n * 10 ^ (7 - L))
        else if n % 10 ^ (L - 7) = 0 then some (n / 10 ^ (L - 7)) else none
      match scaled with
      | none => none
      | some sc =>
        let val : Int := if signed.1 then -(sc : Int) else (sc : Int)
        if -(2 ^ 63) ≤ val ∧ val ≤ 2 ^ 63 - 1 then some val else none
    else none

/-- internal.Account (account.go).  Implements the txnbuild.Account interface. -/
structure Account where
  accountID : String
  sequence : Int
deriving DecidableEq, Repr

/-- internal.AccountDetails (network_client.go). -/
structure AccountDetails where
  sequence : Int
  balance : String
deriving DecidableEq, Repr

/-- Abstraction of the internal.NetworkError interface: the four boolean
classifications and the raw result string.  ResultString returns
(string, error) in Go; a none here is the error case. -/
structure NetworkError where
  notFound : Bool
  badSequence : Bool
  timeout : Bool
  resultString : Option String
deriving DecidableEq, Repr

/-- An error coming back from a NetworkClient call: either a value satisfying
the internal.NetworkError interface, or a plain Go error (the type-switch
default case in the source). -/
inductive ClientError where
  | network (e : NetworkError)
  | generic
deriving DecidableEq, Repr

/-- internal.SimulateTransactionResult (network_client.go). -/
structure SimulateTransactionResult where
  transactionDataXDR : String
  minResourceFee : Int
  authXDR : List String
  resultXDR : String
deriving DecidableEq, Repr

/-- Simulation failure modes of the spec's error taxonomy: a backend without
simulation capability answers unsupported; a failing simulation answers failed. -/
inductive SimulateError where
  | unsupported
  | failed
deriving DecidableEq, Repr

/-- Kind of ledger operation carried by a built transaction. -/
inductive OperationKind where
  | createAccount
  | payment
  | invokeHostFunction
deriving DecidableEq, Repr

/-- One operation of a built transaction (txnbuild.CreateAccount /
txnbuild.Payment / the contract invoke operation), with the fields the claims
are about.  sourceAccount is the operation-level source (the account funding
the value). -/
structure Operation where
  kind : OperationKind
  sourceAccount : String
  destination : String
  amount : String
deriving DecidableEq, Repr

/-- A built and signed transaction.  The Go code serializes this to a base64
envelope and a 32-byte hash through the stellar/go ledger-protocol library;
serialization and hashing are treated as given injective primitives, so the
embedding keeps the structured transaction itself where the code passes the
strings.  signatures lists the signing keys in signing order. -/
structure Tx where
  sourceAccountID : String
  seqNum : Int
  operations : List Operation
  baseFee : Int
  signatures : List String
  sorobanDataXDR : Option String
deriving DecidableEq, Repr

/-- Response oracle for the internal.NetworkClient interface: what each call
would answer during the run under consideration.  A submitTransaction answer of
none is success (nil error). -/
structure NetworkClient where
  getAccountDetails : String → Except ClientError AccountDetails
  submitTransaction : Tx → Option ClientError
  simulateTransaction : String → Except SimulateError SimulateTransactionResult

/-- Observable ledger-client calls made by a code path, in order.  Each
constructor is tagged with the call site: fetchSequence is the
GetAccountDetails issued by Account.RefreshSequenceNumber, probeAccount the one
issued by CheckAccountExists. -/
inductive Event where
  | fetchSequence (accountID : String)
  | probeAccount (address : String)
  | simulateCall (address : String)
  | submitCall (tx : Tx)
deriving DecidableEq, Repr

/-- internal.TransactionResult: Hash and EnvelopeXdr are the hashing and
serialization primitives applied to the submitted transaction, kept here in
structured form. -/
structure TransactionResult where
  successful : Bool
  tx : Tx
deriving DecidableEq, Repr

/-- Account.GetAccountID (account.go). -/
def Account.getAccountID (a : Account) : String :=
  a.accountID

/-- Account.IncrementSequenceNumber (account.go).  The Go method is declared on
a VALUE receiver - func (a Account) IncrementSequenceNumber() (int64, error) -
so a.Sequence++ mutates a local copy: the caller's account is left unchanged.
The embedding returns the incremented value together with the caller's account
as it stands after the call.  The error result is always nil in the source and
is omitted. -/
def Account.incrementSequenceNumber (a : Account) : Int × Account :=
  (a.sequence + 1, a)

/-- The behavior the method's own doc comment describes, for comparison:
"IncrementSequenceNumber increments the internal record of the account's
sequence number by 1", i.e. pointer-receiver semantics under which the caller's
account is advanced. -/
def Account.incrementSequenceNumberDocumented (a : Account) : Int × Account :=
  (a.sequence + 1, { a with sequence := a.sequence + 1 })

/-- Account.RefreshSequenceNumber (account.go): pointer receiver; fetches the
account's details and overwrites the in-memory sequence on success.  On error
the account is unchanged. -/
def Account.refreshSequenceNumber (a : Account) (client : NetworkClient) :
    Except ClientError Account × List Event :=
  (match client.getAccountDetails a.getAccountID with
   | .error e => .error e
   | .ok d => .ok { a with sequence := d.sequence },
   [Event.fetchSequence a.getAccountID])

/-- internal.Minion (minion.go).  Keypair fields carry only the key identity:
signing itself is a ledger-library primitive.  botAccountID is
BotAccount.GetAccountID(), the only use the code makes of the BotAccount field.
The injected strategy functions (SubmitTransaction, CheckSequenceRefresh,
CheckAccountExists) are instantiated with the package-level defaults below,
exactly as init_friendbot.go wires them. -/
structure Minion where
  account : Account
  keypair : String
  botAccountID : String
  botKeypair : String
  network : String
  startingBalance : String
  baseFee : Int
  forceRefreshSequence : Bool
deriving DecidableEq, Repr

/-- CheckSequenceRefresh (minion.go): skip when a cached sequence exists and no
refresh is forced; otherwise refresh from the ledger and clear the flag. -/
def CheckSequenceRefresh (m : Minion) (client : NetworkClient) :
    Except ClientError Minion × List Event :=
  if m.account.sequence ≠ 0 ∧ m.forceRefreshSequence = false then (.ok m, [])
  else
    match m.account.refreshSequenceNumber client with
    | (.error e, evs) => (.error e, evs)
    | (.ok a, evs) => (.ok { m with account := a, forceRefreshSequence := false }, evs)

/-- CheckAccountExists (minion.go): a NotFound-classified NetworkError means
the account does not exist (balance "0"); any other error propagates. -/
def CheckAccountExists (client : NetworkClient) (address : String) :
    Except ClientError (Bool × String) × List Event :=
  (match client.getAccountDetails address with
   | .ok d => .ok (true, d.balance)
   | .error (.network e) =>
     if e.notFound then .ok (false, "0") else .error (.network e)
   | .error .generic => .error .generic,
   [Event.probeAccount address])

/-- Minion.checkHandleBadSequence (minion.go). -/
def Minion.checkHandleBadSequence (m : Minion) (e : NetworkError) : Minion :=
  if e.badSequence then { m with forceRefreshSequence := true } else m

/-- Errors produced by Minion.checkBalance. -/
inductive BalanceError where
  | parseBalance
  | parseStarting
  | accountFunded
deriving DecidableEq, Repr

/-- Minion.checkBalance (minion.go): parse both balances; ErrAccountFunded when
the destination balance already reaches the configured starting balance. -/
def Minion.checkBalance (m : Minion) (balance : String) : Option BalanceError :=
  match parseInt64 balance with
  | none => some .parseBalance
  | some bal =>
    match parseInt64 m.startingBalance with
    | none => some .parseStarting
    | some starting => if bal ≥ starting then some .accountFunded else none

/-- The raw transaction result code the source compares against to detect the
create-account-already-exists race (minion.go). -/
def createAccountAlreadyExistXDR : String :=
  "AAAAAAAAAGT/////AAAAAQAAAAAAAAAA/////AAAAAA="

/-- Error cases of the package-level SubmitTransaction (minion.go).  The Go
code flattens the network case into an error string carrying the raw result;
the embedding keeps the classified error for transparency, the branch taken is
the same. -/
inductive SubmitError where
  | accountExists
  | network (e : NetworkError)
  | generic
deriving DecidableEq, Repr

/-- Package-level SubmitTransaction (minion.go), the default injected
submission strategy: submit; on a NetworkError first run
checkHandleBadSequence, then replace the error by ErrAccountExists when the raw
result code is the already-exists code; every error path returns the failure
(the submission is never retried here). -/
def SubmitTransaction (m : Minion) (client : NetworkClient) (tx : Tx) :
    Except SubmitError TransactionResult × Minion × List Event :=
  match client.submitTransaction tx with
  | none => (.ok { successful := true, tx := tx }, m, [Event.submitCall tx])
  | some (.network e) =>
    let m' := m.checkHandleBadSequence e
    (match e.resultString with
     | none => .error (.network e)
     | some s =>
       if s = createAccountAlreadyExistXDR then .error .accountExists
       else .error (.network e),
     m', [Event.submitCall tx])
  | some .generic => (.error .generic, m, [Event.submitCall tx])

/-- Minion.makeCreateTx (minion.go): CreateAccount operation, operation source
(value owner) = the shared bot account, transaction source / sequence =
the minion's channel account, amount = the full configured starting balance.
IncrementSequenceNum: true makes txnbuild call IncrementSequenceNumber on a
boxed copy of the account: the transaction carries sequence + 1 and the
minion's stored account is unchanged.  The transaction is signed with the
minion keypair then the bot keypair.  txnbuild construction, signing,
serialization and hashing errors are ledger-library failures outside this
model. -/
def Minion.makeCreateTx (m : Minion) (destAddress : String) : Tx :=
  { sourceAccountID := m.account.getAccountID
    seqNum := (m.account.incrementSequenceNumber).1
    operations := [{ kind := .createAccount
                     sourceAccount := m.botAccountID
                     destination := destAddress
                     amount := m.startingBalance }]
    baseFee := m.baseFee
    signatures := [m.keypair, m.botKeypair]
    sorobanDataXDR := none }

/-- Minion.makePaymentTx (minion.go): native-asset Payment operation, same
authorization split and amount as makeCreateTx. -/
def Minion.makePaymentTx (m : Minion) (destAddress : String) : Tx :=
  { sourceAccountID := m.account.getAccountID
    seqNum := (m.account.incrementSequenceNumber).1
    operations := [{ kind := .payment
                     sourceAccount := m.botAccountID
                     destination := destAddress
                     amount := m.startingBalance }]
    baseFee := m.baseFee
    signatures := [m.keypair, m.botKeypair]
    sorobanDataXDR := none }

/-- Minion.makeTx (minion.go): Payment when the destination exists,
CreateAccount otherwise. -/
def Minion.makeTx (m : Minion) (destAddress : String) (destExists : Bool) : Tx :=
  if destExists then m.makePaymentTx destAddress else m.makeCreateTx destAddress

/-- Failure outcome of one Minion.Run, following the wrap labels of the
source: each constructor is one short-circuit site of Run. -/
inductive RunError where
  | checkingMinionSeq (e : ClientError)
  | checkingAccountExists (e : ClientError)
  | checkBalance (e : BalanceError)
  | submitting (e : SubmitError)
  | simulationFailed (e : SimulateError)
deriving DecidableEq, Repr

/-- Minion.Run (minion.go) for a classic account destination: sequence
readiness, destination probe, already-funded gate, transaction construction,
the IncrementSequenceNumber call (a value-receiver no-op on the stored
account), then submission.  Returns the submitted result or the first failure,
the minion state after the run, and the ledger calls performed. -/
def Minion.run (m : Minion) (client : NetworkClient) (destAddress : String) :
    Except RunError TransactionResult × Minion × List Event :=
  match CheckSequenceRefresh m client with
  | (.error e, evs1) => (.error (.checkingMinionSeq e), m, evs1)
  | (.ok m1, evs1) =>
    match CheckAccountExists client destAddress with
    | (.error e, evs2) => (.error (.checkingAccountExists e), m1, evs1 ++ evs2)
    | (.ok (destExists, balance), evs2) =>
      match m1.checkBalance balance with
      | some e => (.error (.checkBalance e), m1, evs1 ++ evs2)
      | none =>
        let tx := m1.makeTx destAddress destExists
        let m2 : Minion := { m1 with account := (m1.account.incrementSequenceNumber).2 }
        match SubmitTransaction m2 client tx with
        | (.ok r, m3, evs3) => (.ok r, m3, evs1 ++ evs2 ++ evs3)
        | (.error e, m3, evs3) => (.error (.submitting e), m3, evs1 ++ evs2 ++ evs3)

/-- Modelled from the spec: the contract-invoke transaction built after a
successful simulation.  The contract-funding branch of the worker is not
present under src (only its tests and callers are); spec section 4.3: build the
invoke operation carrying the returned resource data, funded and authorized by
the shared funder, sequenced by the channel account, amount = starting balance,
signed with both keys. -/
def Minion.makeContractTx (m : Minion) (destAddress : String)
    (sim : SimulateTransactionResult) : Tx :=
  { sourceAccountID := m.account.getAccountID
    seqNum := m.account.sequence + 1
    operations := [{ kind := .invokeHostFunction
                     sourceAccount := m.botAccountID
                     destination := destAddress
                     amount := m.startingBalance }]
    baseFee := m.baseFee
    signatures := [m.keypair, m.botKeypair]
    sorobanDataXDR := some sim.transactionDataXDR }

/-- Modelled from the spec: the worker's run for a Contract-kind destination.
The implementation is not present under src (only its tests and callers are).
Spec sections 4.2 and 4.3: sequence readiness as for any destination; the
destination existence/balance probe and the already-funded gate are skipped
entirely; the intended invoke-transfer is first simulated against the ledger
client, a simulation failure or an unsupported backend fails the run without
submitting; on success the invoke transaction is built from the simulation
data, the cached sequence is advanced by one before submission, and the
transaction is submitted. -/
def Minion.runContract (m : Minion) (client : NetworkClient) (destAddress : String) :
    Except RunError TransactionResult × Minion × List Event :=
  match CheckSequenceRefresh m client with
  | (.error e, evs1) => (.error (.checkingMinionSeq e), m, evs1)
  | (.ok m1, evs1) =>
    match client.simulateTransaction destAddress with
    | .error e =>
      (.error (.simulationFailed e), m1, evs1 ++ [Event.simulateCall destAddress])
    | .ok sim =>
      let tx := m1.makeContractTx destAddress sim
      let m2 : Minion :=
        { m1 with account := { m1.account with sequence := m1.account.sequence + 1 } }
      match SubmitTransaction m2 client tx with
      | (.ok r, m3, evs3) =>
        (.ok r, m3, evs1 ++ [Event.simulateCall destAddress] ++ evs3)
      | (.error e, m3, evs3) =>
        (.error (.submitting e), m3, evs1 ++ [Event.simulateCall destAddress] ++ evs3)

/-- Destination kinds produced by the address classifier (spec section 3):
classified from the address encoding, not queried from the ledger. -/
inductive DestinationKind where
  | classicAccount
  | contract
deriving DecidableEq, Repr

/-- Modelled from the spec: the worker dispatches on the destination kind
produced by the address classifier (IsContractAddress in the repository, not
present under src): Contract destinations take the simulate-and-invoke flow,
ClassicAccount destinations the probe/gate/create-or-pay flow embedded above
from the source. -/
def Minion.runDest (m : Minion) (client : NetworkClient) (destAddress : String) :
    DestinationKind → Except RunError TransactionResult × Minion × List Event
  | .contract => m.runContract client destAddress
  | .classicAccount => m.run client destAddress

/-- internal.Bot (friendbot.go): the minion pool and the round-robin cursor.
The cursor is a Go int starting at 0 and kept in range by the modular advance;
it is modelled as a Nat. -/
structure Bot where
  minions : List Minion
  nextMinionIndex : Nat
deriving Repr

/-- The worker-selection step of Bot.Pay (friendbot.go): read the cursor, index
the pool, advance the cursor modulo the pool length, all under the index mutex.
An out-of-range index (in particular any index into an empty pool) is a Go
panic, modelled as none.  The selection does not look at the request. -/
def Bot.paySelect (bot : Bot) : Option (Nat × Minion × Bot) :=
  match bot.minions[bot.nextMinionIndex]? with
  | none => none
  | some m =>
    some (bot.nextMinionIndex, m,
      { bot with nextMinionIndex := (bot.nextMinionIndex + 1) % bot.minions.length })

/-- Worker indices selected by a sequence of Bot.Pay calls, one call per
request in dests.  Each call runs the selection step; the request content is
passed on to the selected worker only, never consulted for selection. -/
def Bot.dispatchIndices : Bot → List String → Option (List Nat)
  | _, [] => some []
  | bot, _ :: rest =>
    match bot.paySelect with
    | none => none
    | some (i, _, bot') =>
      match bot'.dispatchIndices rest with
      | none => none
      | some l => some (i :: l)

/-- One loop iteration's environment behavior in createMinionAccounts
(init_friendbot.go): either the bot-account sequence refresh fails, or it
succeeds and the batch submission answers r (none = success). -/
inductive BootStep where
  | refreshErr (e : ClientError)
  | submitRes (r : Option ClientError)
deriving DecidableEq, Repr

/-- Failure outcome of createMinionAccounts, one constructor per return site of
the source.  outOfTrace marks exhaustion of the modelled environment trace and
is reached by no theorem below. -/
inductive BootError where
  | refreshingBotSeq (e : ClientError)
  | submitting (e : ClientError)
  | retriesExhausted (e : ClientError)
  | outOfTrace
deriving DecidableEq, Repr

/-- createMinionAccounts (init_friendbot.go).  Minion identities are freshly
generated random keypairs, so the embedding tracks the number of minion
accounts created so far (the length of the accumulated minions slice); the
returned pair is that count together with the error of the aborting return
site, none on normal termination.  Arguments mirror the loop state: remaining =
numRemainingMinions, created = len(minions), retryCount = currentSubmitTxRetry;
each loop iteration consumes one BootStep of the environment trace.  A batch
creates min(batchSize, remaining) accounts; a timeout-classified submission
failure retries the batch while retryCount has not passed retriesAllowed,
counting one more retry; any other failure aborts with the accounts created so
far; success resets the retry counter. -/
def createMinionAccounts (batchSize retriesAllowed : Nat) :
    Nat → Nat → Nat → List BootStep → Nat × Option BootError
  | remaining, created, retryCount, trace =>
    if remaining = 0 then (created, none)
    else
      match trace with
      | [] => (created, some .outOfTrace)
      | .refreshErr e :: _ => (created, some (.refreshingBotSeq e))
      | .submitRes r :: rest =>
        let numCreate := min batchSize remaining
        match r with
        | none =>
          createMinionAccounts batchSize retriesAllowed
            (remaining - numCreate) (created + numCreate) 0 rest
        | some (.network e) =>
          if e.timeout then
            if retryCount ≥ retriesAllowed then
              (created, some (.retriesExhausted (.network e)))
            else
              createMinionAccounts batchSize retriesAllowed
                remaining created (retryCount + 1) rest
          else (created, some (.submitting (.network e)))
        | some .generic => (created, some (.submitting .generic))

/-- rpcnetworkclient.NetworkError (rpcnetworkclient/client.go): the concrete
error type of the asynchronous RPC backend.  IsTimeout reads the timeout flag;
ResultString fails exactly when the stored result XDR string is empty. -/
structure RpcNetworkError where
  notFound : Bool
  timeout : Bool
  resultXDR : String
  diagnosticEventsXDR : List String
deriving DecidableEq, Repr

/-- RpcNetworkError.IsTimeout. -/
def RpcNetworkError.isTimeout (e : RpcNetworkError) : Bool :=
  e.timeout

/-- RpcNetworkError.ResultString: (string, error) in Go; none is the error
case, taken exactly when no result XDR is available. -/
def RpcNetworkError.resultString (e : RpcNetworkError) : Option String :=
  if e.resultXDR = "" then none else some e.resultXDR

/-- Status string of an immediately rejected send (rpcnetworkclient/client.go,
constant statusError). -/
def statusError : String := "ERROR"

/-- protocol.TransactionStatusSuccess. -/
def transactionStatusSuccess : String := "SUCCESS"

/-- protocol.TransactionStatusFailed. -/
def transactionStatusFailed : String := "FAILED"

/-- Outcome of the initial SendTransaction call: a transport error, or a
response with a status, the error result XDR (meaningful on rejection), the
diagnostic events, and the transaction hash to poll. -/
inductive RpcSendResult where
  | sendErr
  | response (status : String) (errorResultXDR : String)
      (diagnosticEventsXDR : List String) (hash : String)
deriving DecidableEq, Repr

/-- Outcome of one GetTransaction poll: a transport error, or a response with a
status string, result XDR and diagnostic events. -/
inductive RpcGetTxResponse where
  | clientErr
  | status (s : String) (resultXDR : String) (diagnosticEventsXDR : List String)
deriving DecidableEq, Repr

/-- pollTransactionStatus (rpcnetworkclient/client.go): poll GetTransaction at
bounded exponential backoff until the transaction is SUCCESS (nil), FAILED or a
client error (permanent failure), or the overall submit deadline expires
(timeout-classified failure).  Anything else, including NOT_FOUND, retries.
The finite list of poll responses is the poll budget the 30-second overall
deadline admits: exhausting it is the deadline elapsing, which the backoff
context turns into the timeout-classified NetworkError of the source. -/
def pollTransactionStatus : List RpcGetTxResponse → Option RpcNetworkError
  | [] =>
    some { notFound := false, timeout := true, resultXDR := "", diagnosticEventsXDR := [] }
  | .clientErr :: _ =>
    some { notFound := false, timeout := false, resultXDR := "", diagnosticEventsXDR := [] }
  | .status s rx dx :: rest =>
    if s = transactionStatusSuccess then none
    else if s = transactionStatusFailed then
      some { notFound := false, timeout := false, resultXDR := rx, diagnosticEventsXDR := dx }
    else pollTransactionStatus rest

/-- rpcnetworkclient SubmitTransaction (rpcnetworkclient/client.go): send the
transaction; a transport error is returned as a plain NetworkError; a response
with status ERROR is an immediate rejection carrying the error result XDR;
otherwise poll the returned hash until a terminal state or the deadline. -/
def rpcSubmitTransaction (send : RpcSendResult) (polls : List RpcGetTxResponse) :
    Option RpcNetworkError :=
  match send with
  | .sendErr =>
    some { notFound := false, timeout := false, resultXDR := "", diagnosticEventsXDR := [] }
  | .response status errXDR dx _ =>
    if status = statusError then
      some { notFound := false, timeout := false, resultXDR := errXDR, diagnosticEventsXDR := dx }
    else pollTransactionStatus polls

/-- The first poll response the poll loop stops at: a client error or a
terminal (SUCCESS or FAILED) status.  Used to state what the loop converges to. -/
def pollTerminal (polls : List RpcGetTxResponse) : Option RpcGetTxResponse :=
  polls.find? (fun r =>
    match r with
    | .clientErr => true
    | .status s _ _ => s = transactionStatusSuccess || s = transactionStatusFailed)

/-- Concrete worker account used by closed evaluations: a channel account with
a cached (nonzero) sequence number. -/
def sampleAccount : Account := { accountID := "GMINION", sequence := 5 }

/-- Concrete worker used by closed evaluations, configured like
init_friendbot.go wires minions (shared bot account as operation source,
starting balance from configuration). -/
def sampleMinion : Minion :=
  { account := sampleAccount
    keypair := "minion-key"
    botAccountID := "GBOT"
    botKeypair := "bot-key"
    network := "Test SDF Network ; September 2015"
    startingBalance := "10000.00"
    baseFee := 100
    forceRefreshSequence := false }

/-- A NotFound-classified network error (HTTP 404 account probe). -/
def notFoundErr : NetworkError :=
  { notFound := true, badSequence := false, timeout := false, resultString := none }

/-- A BadSequence-classified network error (tx_bad_seq result code). -/
def badSeqErr : NetworkError :=
  { notFound := false, badSequence := true, timeout := false,
    resultString := some "AAAAbad_seq" }

/-- Ledger oracle for closed evaluations: the destination GDEST does not exist,
every other account reads back sequence 20, and submissions succeed. -/
def sampleClient : NetworkClient :=
  { getAccountDetails := fun a =>
      if a = "GDEST" then .error (.network notFoundErr)
      else .ok { sequence := 20, balance := "0" }
    submitTransaction := fun _ => none
    simulateTransaction := fun _ => .error .unsupported }

/-- C1: the spec states that a worker whose force-refresh flag is never set
advances its cached sequence number by exactly 1 before each submission, so
that successive successful submissions carry s, s+1, s+2, ...  The code does
not do this: Account.IncrementSequenceNumber is declared on a value receiver,
so the increment mutates a copy and the cached value never moves, contradicting
the method's own doc comment.  Concretely, a worker cached at sequence 5 whose
submissions all succeed submits sequence 6 on the first run, is returned
unchanged (still cached at 5), and submits sequence 6 again on the second run
instead of 7. -/
theorem run_never_advances_cached_sequence :
    (sampleMinion.run sampleClient "GDEST").2.2
      = [Event.probeAccount "GDEST", Event.submitCall (sampleMinion.makeCreateTx "GDEST")]
    ∧ (sampleMinion.makeCreateTx "GDEST").seqNum = 6
    ∧ (sampleMinion.run sampleClient "GDEST").2.1 = sampleMinion
    ∧ ((sampleMinion.run sampleClient "GDEST").2.1.run sampleClient "GDEST").2.2
      = [Event.probeAccount "GDEST", Event.submitCall (sampleMinion.makeCreateTx "GDEST")]
    ∧ sampleMinion.account.incrementSequenceNumber
      = (6, { accountID := "GMINION", sequence := 5 })
    ∧ sampleMinion.account.incrementSequenceNumberDocumented
      = (6, { accountID := "GMINION", sequence := 6 }) :=
  ⟨rfl, rfl, rfl, rfl, rfl, rfl⟩

/-- Helper for the round-robin theorems: from any in-range cursor c, the i-th
dispatched request is handled by worker (c + i) mod poolSize. -/
theorem dispatchIndices_from (ms : List Minion) (hP : 0 < ms.length) :
    ∀ (dests : List String) (c : Nat), c < ms.length →
      Bot.dispatchIndices { minions := ms, nextMinionIndex := c } dests
        = some ((List.range dests.length).map (fun i => (c + i) % ms.length)) := by
  intro dests
  induction dests with
  | nil =>
    intro c hc
    simp [Bot.dispatchIndices]
  | cons d rest ih =>
    intro c hc
    match hm : ms[c]? with
    | none =>
      exact absurd (List.getElem?_eq_none_iff.mp hm) (Nat.not_le.mpr hc)
    | some mi =>
      have hnext : (c + 1) % ms.length < ms.length := Nat.mod_lt _ hP
      have hrec := ih ((c + 1) % ms.length) hnext
      simp only [Bot.dispatchIndices, Bot.paySelect, hm, hrec, List.length_cons,
        List.range_succ_eq_map, List.map_cons, List.map_map]
      simp only [Nat.add_zero, Nat.mod_eq_of_lt hc]
      refine congrArg some (congrArg (List.cons c) ?_)
      apply List.map_congr_left
      intro i _
      simp only [Function.comp_apply, Nat.mod_add_mod, Nat.succ_eq_add_one]
      congr 1
      omega

/-- C3: dispatch is round-robin and content-independent: with pool size P and
cursor starting at 0 (the Go zero value), N dispatch calls select worker
indices 0, 1, ..., P-1, 0, 1, ... (the i-th call selects i mod P), and the
selected indices depend only on the number of requests, never on the request
addresses. -/
theorem dispatch_round_robin (ms : List Minion) (dests : List String)
    (hP : 0 < ms.length) :
    Bot.dispatchIndices { minions := ms, nextMinionIndex := 0 } dests
      = some ((List.range dests.length).map (fun i => i % ms.length))
    ∧ ∀ dests' : List String, dests'.length = dests.length →
        Bot.dispatchIndices { minions := ms, nextMinionIndex := 0 } dests'
          = Bot.dispatchIndices { minions := ms, nextMinionIndex := 0 } dests := by
  have hmain : ∀ ds : List String,
      Bot.dispatchIndices { minions := ms, nextMinionIndex := 0 } ds
        = some ((List.range ds.length).map (fun i => i % ms.length)) := by
    intro ds
    have h := dispatchIndices_from ms hP ds 0 hP
    simpa using h
  exact ⟨hmain dests, fun dests' hlen => by rw [hmain dests', hmain dests, hlen]⟩

/-- Witness for C3: three workers, seven requests, indices 0 1 2 0 1 2 0. -/
theorem dispatch_round_robin_witness :
    Bot.dispatchIndices
        { minions := List.replicate 3 sampleMinion, nextMinionIndex := 0 }
        ["a", "b", "c", "d", "e", "f", "g"]
      = some [0, 1, 2, 0, 1, 2, 0] := by
  have h := (dispatch_round_robin (List.replicate 3 sampleMinion)
    ["a", "b", "c", "d", "e", "f", "g"] (by decide)).1
  rw [h]
  decide

/-- C9: the dispatcher's cursor invariant.  For a non-empty pool with the
cursor in [0, len), the selection step succeeds, returns exactly the cursor as
the selected in-bounds index, and leaves the advanced cursor again in
[0, len) over the unchanged pool; over an empty pool, selection cannot index at
all (the source would panic). -/
theorem paySelect_cursor_invariant (bot : Bot)
    (h0 : 0 < bot.minions.length) (hc : bot.nextMinionIndex < bot.minions.length) :
    (∃ m, bot.paySelect = some (bot.nextMinionIndex, m,
        { minions := bot.minions,
          nextMinionIndex := (bot.nextMinionIndex + 1) % bot.minions.length }))
    ∧ bot.nextMinionIndex < bot.minions.length
    ∧ (bot.nextMinionIndex + 1) % bot.minions.length < bot.minions.length
    ∧ ∀ b : Bot, b.minions = [] → b.paySelect = none := by
  refine ⟨?_, hc, Nat.mod_lt _ h0, ?_⟩
  · match hm : bot.minions[bot.nextMinionIndex]? with
    | none =>
      exact absurd (List.getElem?_eq_none_iff.mp hm) (Nat.not_le.mpr hc)
    | some mi =>
      exact ⟨mi, by simp [Bot.paySelect, hm]⟩
  · intro b hb
    simp [Bot.paySelect, hb]

/-- Witness for C9: a two-worker pool with the cursor at 1 selects index 1 and
wraps the cursor to 0. -/
theorem paySelect_cursor_invariant_witness :
    (∃ m, Bot.paySelect { minions := [sampleMinion, sampleMinion], nextMinionIndex := 1 }
        = some (1, m, { minions := [sampleMinion, sampleMinion], nextMinionIndex := 0 }))
    ∧ (1 : Nat) < 2 ∧ (1 + 1) % 2 < 2 := by
  have h := paySelect_cursor_invariant
    { minions := [sampleMinion, sampleMinion], nextMinionIndex := 1 }
    (by decide) (by decide)
  exact ⟨h.1, by decide, by decide⟩

/-- Helper: the submission step always performs exactly one submit call,
whatever its outcome: the call is never retried at this layer. -/
theorem submitTransaction_components (m : Minion) (client : NetworkClient) (tx : Tx) :
    ∃ r m', SubmitTransaction m client tx = (r, m', [Event.submitCall tx]) := by
  unfold SubmitTransaction
  cases client.submitTransaction tx with
  | none => exact ⟨_, _, rfl⟩
  | some ce =>
    cases ce with
    | network e => exact ⟨_, _, rfl⟩
    | generic => exact ⟨_, _, rfl⟩

/-- A worker whose sequence-readiness fetch answered the details d: the cached
sequence is overwritten with the fetched one and the force-refresh flag is
cleared. -/
def refreshedMinion (m : Minion) (d : AccountDetails) : Minion :=
  { m with account := { m.account with sequence := d.sequence }
           forceRefreshSequence := false }

/-- Helper: with the force-refresh flag set, the sequence-readiness step
performs the ledger fetch (its one event), whatever the fetch returns. -/
theorem checkSequenceRefresh_forced (m : Minion) (client : NetworkClient)
    (hforce : m.forceRefreshSequence = true) :
    ∃ r, CheckSequenceRefresh m client
      = (r, [Event.fetchSequence m.account.accountID]) := by
  have hcnd : ¬(m.account.sequence ≠ 0 ∧ m.forceRefreshSequence = false) :=
    fun hc => by rw [hforce] at hc; exact Bool.noConfusion hc.2
  cases hga : client.getAccountDetails m.account.accountID with
  | error e2 =>
    refine ⟨.error e2, ?_⟩
    unfold CheckSequenceRefresh Account.refreshSequenceNumber Account.getAccountID
    rw [if_neg hcnd, hga]
  | ok d =>
    refine ⟨.ok (refreshedMinion m d), ?_⟩
    unfold CheckSequenceRefresh Account.refreshSequenceNumber Account.getAccountID
    rw [if_neg hcnd, hga]
    rfl

/-- Helper: a run on a worker whose force-refresh flag is set starts with the
sequence fetch from the ledger client, before any other ledger call (in
particular before the transaction is built and submitted). -/
theorem run_fetches_first_when_forced (m : Minion) (client : NetworkClient)
    (dest : String) (hforce : m.forceRefreshSequence = true) :
    ∃ rest, (m.run client dest).2.2
      = Event.fetchSequence m.account.accountID :: rest := by
  obtain ⟨r, hr⟩ := checkSequenceRefresh_forced m client hforce
  cases r with
  | error e => exact ⟨[], by simp [Minion.run, hr]⟩
  | ok m1 =>
    obtain ⟨r2, hr2⟩ : ∃ r2, CheckAccountExists client dest
        = (r2, [Event.probeAccount dest]) := ⟨_, rfl⟩
    cases r2 with
    | error e => exact ⟨[Event.probeAccount dest], by simp [Minion.run, hr, hr2]⟩
    | ok p =>
      obtain ⟨destExists, balance⟩ := p
      cases hcb : m1.checkBalance balance with
      | some e => exact ⟨[Event.probeAccount dest], by simp [Minion.run, hr, hr2, hcb]⟩
      | none =>
        obtain ⟨r3, m3, hr3⟩ := submitTransaction_components
          { m1 with account := (m1.account.incrementSequenceNumber).2 } client
          (m1.makeTx dest destExists)
        cases r3 with
        | error e =>
          exact ⟨[Event.probeAccount dest, Event.submitCall (m1.makeTx dest destExists)],
            by simp [Minion.run, hr, hr2, hcb, hr3]⟩
        | ok res =>
          exact ⟨[Event.probeAccount dest, Event.submitCall (m1.makeTx dest destExists)],
            by simp [Minion.run, hr, hr2, hcb, hr3]⟩

/-- C2: a submission that fails with a BadSequence-classified NetworkError is
returned as a failure after its single submit call (never retried), and sets
the worker's force-refresh flag, so that the worker's next run performs the
ledger sequence fetch first, before building any transaction, even though a
cached sequence value exists; a submission failure not classified BadSequence
leaves the worker unchanged. -/
theorem bad_sequence_sets_force_refresh (m : Minion) (client : NetworkClient)
    (tx : Tx) (e : NetworkError)
    (hsub : client.submitTransaction tx = some (.network e)) :
    (∃ err, SubmitTransaction m client tx
        = (.error err, m.checkHandleBadSequence e, [Event.submitCall tx]))
    ∧ (e.badSequence = true →
        (m.checkHandleBadSequence e).forceRefreshSequence = true
        ∧ ∀ (client' : NetworkClient) (dest : String), ∃ rest,
            ((m.checkHandleBadSequence e).run client' dest).2.2
              = Event.fetchSequence m.account.accountID :: rest)
    ∧ (e.badSequence = false → m.checkHandleBadSequence e = m) := by
  refine ⟨?_, ?_, ?_⟩
  · cases hrs : e.resultString with
    | none => exact ⟨.network e, by simp [SubmitTransaction, hsub, hrs]⟩
    | some s =>
      by_cases hx : s = createAccountAlreadyExistXDR
      · exact ⟨.accountExists, by simp [SubmitTransaction, hsub, hrs, hx]⟩
      · exact ⟨.network e, by simp [SubmitTransaction, hsub, hrs, hx]⟩
  · intro hbad
    have hm' : m.checkHandleBadSequence e
        = { m with forceRefreshSequence := true } := by
      unfold Minion.checkHandleBadSequence
      rw [hbad]
      simp
    refine ⟨by rw [hm'], ?_⟩
    intro client' dest
    rw [hm']
    exact run_fetches_first_when_forced
      { m with forceRefreshSequence := true } client' dest rfl
  · intro hbad
    unfold Minion.checkHandleBadSequence
    rw [hbad]
    simp

/-- Witness for C2: a worker cached at sequence 5 whose submission answers a
BadSequence error fails the call, sets the force-refresh flag, and its next run
fetches the sequence first. -/
theorem bad_sequence_sets_force_refresh_witness :
    (∃ err, SubmitTransaction sampleMinion
        { sampleClient with submitTransaction := fun _ => some (.network badSeqErr) }
        (sampleMinion.makeCreateTx "GDEST")
      = (.error err, sampleMinion.checkHandleBadSequence badSeqErr,
          [Event.submitCall (sampleMinion.makeCreateTx "GDEST")]))
    ∧ (sampleMinion.checkHandleBadSequence badSeqErr).forceRefreshSequence = true := by
  have h := bad_sequence_sets_force_refresh sampleMinion
    { sampleClient with submitTransaction := fun _ => some (.network badSeqErr) }
    (sampleMinion.makeCreateTx "GDEST") badSeqErr rfl
  exact ⟨h.1, (h.2.1 rfl).1⟩

/-- C10: when the sequence-refresh step needs a fetch and the fetch fails, the
step and the whole run return the error with the worker exactly as it was: the
cached sequence keeps its prior value and a set force-refresh flag stays set;
and the flag is cleared only by a run whose fetch succeeded (the refreshed
sequence is then the fetched one). -/
theorem refresh_failure_preserves_state (m : Minion) (client : NetworkClient)
    (e : ClientError)
    (hfetch : client.getAccountDetails m.account.accountID = .error e)
    (hneed : m.account.sequence = 0 ∨ m.forceRefreshSequence = true) :
    CheckSequenceRefresh m client
      = (.error e, [Event.fetchSequence m.account.accountID])
    ∧ (∀ dest, m.run client dest
        = (.error (.checkingMinionSeq e), m, [Event.fetchSequence m.account.accountID]))
    ∧ (∀ (c : NetworkClient) (m' : Minion) (evs : List Event),
        m.forceRefreshSequence = true →
        CheckSequenceRefresh m c = (.ok m', evs) →
        (∃ d, c.getAccountDetails m.account.accountID = .ok d
            ∧ m'.account.sequence = d.sequence)
        ∧ m'.forceRefreshSequence = false) := by
  have hcond : ¬(m.account.sequence ≠ 0 ∧ m.forceRefreshSequence = false) := by
    rcases hneed with h | h
    · exact fun hc => hc.1 h
    · exact fun hc => by rw [h] at hc; exact Bool.noConfusion hc.2
  have hcsr : CheckSequenceRefresh m client
      = (.error e, [Event.fetchSequence m.account.accountID]) := by
    unfold CheckSequenceRefresh Account.refreshSequenceNumber Account.getAccountID
    rw [if_neg hcond, hfetch]
  refine ⟨hcsr, ?_, ?_⟩
  · intro dest
    unfold Minion.run
    rw [hcsr]
  · intro c m' evs hforce hok
    have hcnd : ¬(m.account.sequence ≠ 0 ∧ m.forceRefreshSequence = false) := by
      exact fun hc => by rw [hforce] at hc; exact Bool.noConfusion hc.2
    cases hga : c.getAccountDetails m.account.accountID with
    | error e2 =>
      have hbad : CheckSequenceRefresh m c
          = (.error e2, [Event.fetchSequence m.account.accountID]) := by
        unfold CheckSequenceRefresh Account.refreshSequenceNumber Account.getAccountID
        rw [if_neg hcnd, hga]
      rw [hbad] at hok
      simp at hok
    | ok d =>
      have hck : CheckSequenceRefresh m c
          = (.ok (refreshedMinion m d), [Event.fetchSequence m.account.accountID]) := by
        unfold CheckSequenceRefresh Account.refreshSequenceNumber Account.getAccountID
        rw [if_neg hcnd, hga]
        rfl
      rw [hck] at hok
      simp only [Prod.mk.injEq, Except.ok.injEq] at hok
      refine ⟨⟨d, rfl, ?_⟩, ?_⟩
      · rw [← hok.1]; rfl
      · rw [← hok.1]; rfl

/-- Witness for C10: a forced worker whose fetch fails is returned unchanged
with the flag still set. -/
theorem refresh_failure_preserves_state_witness :
    ({ sampleMinion with forceRefreshSequence := true } : Minion).run
        { sampleClient with getAccountDetails := fun _ => .error .generic } "GDEST"
      = (.error (.checkingMinionSeq .generic),
          { sampleMinion with forceRefreshSequence := true },
          [Event.fetchSequence "GMINION"]) := by
  have h := refresh_failure_preserves_state
    { sampleMinion with forceRefreshSequence := true }
    { sampleClient with getAccountDetails := fun _ => .error .generic }
    .generic rfl (Or.inr rfl)
  exact h.2.1 "GDEST"

/-- Helper: with a cached (nonzero) sequence and no forced refresh, the
sequence-readiness step is a no-op performing no ledger call. -/
theorem checkSequenceRefresh_cached (m : Minion) (client : NetworkClient)
    (hseq : m.account.sequence ≠ 0) (hflag : m.forceRefreshSequence = false) :
    CheckSequenceRefresh m client = (.ok m, []) := by
  unfold CheckSequenceRefresh
  rw [if_pos ⟨hseq, hflag⟩]

/-- C4: the already-funded gate for classic destinations.  On a worker with a
ready cached sequence, if the destination exists with a native balance at least
the configured starting balance, the run fails with the AlreadyFunded error
after the probe alone: no transaction is built or submitted.  If the balance is
below the starting balance, the run proceeds to submission (a submit call with
the payment transaction follows the probe). -/
theorem already_funded_gate (m : Minion) (client : NetworkClient) (dest : String)
    (d : AccountDetails) (bal starting : Int)
    (hseq : m.account.sequence ≠ 0) (hflag : m.forceRefreshSequence = false)
    (hdest : client.getAccountDetails dest = .ok d)
    (hbal : parseInt64 d.balance = some bal)
    (hst : parseInt64 m.startingBalance = some starting) :
    (bal ≥ starting →
      m.run client dest
        = (.error (.checkBalance .accountFunded), m, [Event.probeAccount dest]))
    ∧ (bal < starting →
      ∃ res m', m.run client dest
        = (res, m', [Event.probeAccount dest,
            Event.submitCall (m.makePaymentTx dest)])) := by
  have hcsr := checkSequenceRefresh_cached m client hseq hflag
  have hcae : CheckAccountExists client dest
      = (.ok (true, d.balance), [Event.probeAccount dest]) := by
    unfold CheckAccountExists
    rw [hdest]
  constructor
  · intro hge
    have hcb : m.checkBalance d.balance = some .accountFunded := by
      simp only [Minion.checkBalance, hbal, hst]
      rw [if_pos hge]
    simp [Minion.run, hcsr, hcae, hcb]
  · intro hlt
    have hcb : m.checkBalance d.balance = none := by
      simp only [Minion.checkBalance, hbal, hst]
      rw [if_neg (not_le.mpr hlt)]
    obtain ⟨r3, m3, hr3⟩ := submitTransaction_components m client (m.makePaymentTx dest)
    cases r3 with
    | ok r =>
      exact ⟨.ok r, m3,
        by simp [Minion.run, hcsr, hcae, hcb, hr3, Minion.makeTx,
          Account.incrementSequenceNumber]⟩
    | error e2 =>
      exact ⟨.error (.submitting e2), m3,
        by simp [Minion.run, hcsr, hcae, hcb, hr3, Minion.makeTx,
          Account.incrementSequenceNumber]⟩

/-- Ledger oracle whose probed destination exists with exactly the starting
balance already on it. -/
def fundedClient : NetworkClient :=
  { getAccountDetails := fun _ => .ok { sequence := 20, balance := "10000.00" }
    submitTransaction := fun _ => none
    simulateTransaction := fun _ => .error .unsupported }

/-- Witness for C4: probing a destination already at the starting balance
fails with AlreadyFunded after the probe alone. -/
theorem already_funded_gate_witness :
    sampleMinion.run fundedClient "GDEST"
      = (.error (.checkBalance .accountFunded), sampleMinion,
          [Event.probeAccount "GDEST"]) := by
  have h := already_funded_gate sampleMinion fundedClient "GDEST"
    { sequence := 20, balance := "10000.00" } 100000000000 100000000000
    (by decide) rfl rfl (by decide) (by decide)
  exact h.1 (le_refl _)

/-- C6: the transaction strategy for classic destinations.  A run on a
destination the ledger reports as not found submits the CreateAccount
transaction; a run on an existing destination below the starting balance
submits the Payment transaction.  In both built transactions the operation's
source (the value owner) is the shared funder account, the transaction's
source and sequence come from the worker's channel account (cached sequence
plus one), the amount is the full configured starting balance, and the
signatures are the channel-account key followed by the funder key. -/
theorem transaction_strategy (m : Minion) (dest : String) (starting : Int)
    (hseq : m.account.sequence ≠ 0) (hflag : m.forceRefreshSequence = false)
    (hst : parseInt64 m.startingBalance = some starting) (hpos : 0 < starting) :
    (∀ (client : NetworkClient) (e : NetworkError),
      client.getAccountDetails dest = .error (.network e) → e.notFound = true →
      ∃ res m', m.run client dest
        = (res, m', [Event.probeAccount dest,
            Event.submitCall (m.makeCreateTx dest)]))
    ∧ (∀ (client : NetworkClient) (d : AccountDetails) (bal : Int),
      client.getAccountDetails dest = .ok d → parseInt64 d.balance = some bal →
      bal < starting →
      ∃ res m', m.run client dest
        = (res, m', [Event.probeAccount dest,
            Event.submitCall (m.makePaymentTx dest)]))
    ∧ (m.makeCreateTx dest).operations
      = [{ kind := .createAccount, sourceAccount := m.botAccountID,
           destination := dest, amount := m.startingBalance }]
    ∧ (m.makePaymentTx dest).operations
      = [{ kind := .payment, sourceAccount := m.botAccountID,
           destination := dest, amount := m.startingBalance }]
    ∧ (m.makeCreateTx dest).sourceAccountID = m.account.accountID
    ∧ (m.makeCreateTx dest).seqNum = m.account.sequence + 1
    ∧ (m.makeCreateTx dest).signatures = [m.keypair, m.botKeypair]
    ∧ (m.makePaymentTx dest).sourceAccountID = m.account.accountID
    ∧ (m.makePaymentTx dest).seqNum = m.account.sequence + 1
    ∧ (m.makePaymentTx dest).signatures = [m.keypair, m.botKeypair] := by
  refine ⟨?_, ?_, rfl, rfl, rfl, rfl, rfl, rfl, rfl, rfl⟩
  · intro client e hdest hnf
    have hcsr := checkSequenceRefresh_cached m client hseq hflag
    have hcae : CheckAccountExists client dest
        = (.ok (false, "0"), [Event.probeAccount dest]) := by
      unfold CheckAccountExists
      rw [hdest]
      simp [hnf]
    have hz : parseInt64 "0" = some 0 := by decide
    have hcb : m.checkBalance "0" = none := by
      simp only [Minion.checkBalance, hz, hst]
      rw [if_neg (not_le.mpr hpos)]
    obtain ⟨r3, m3, hr3⟩ := submitTransaction_components m client (m.makeCreateTx dest)
    cases r3 with
    | ok r =>
      exact ⟨.ok r, m3, by simp [Minion.run, hcsr, hcae, hcb, hr3, Minion.makeTx,
        Account.incrementSequenceNumber]⟩
    | error e2 =>
      exact ⟨.error (.submitting e2), m3, by simp [Minion.run, hcsr, hcae, hcb, hr3,
        Minion.makeTx, Account.incrementSequenceNumber]⟩
  · intro client d bal hdest hbal hlt
    have hcsr := checkSequenceRefresh_cached m client hseq hflag
    have hcae : CheckAccountExists client dest
        = (.ok (true, d.balance), [Event.probeAccount dest]) := by
      unfold CheckAccountExists
      rw [hdest]
    have hcb : m.checkBalance d.balance = none := by
      simp only [Minion.checkBalance, hbal, hst]
      rw [if_neg (not_le.mpr hlt)]
    obtain ⟨r3, m3, hr3⟩ := submitTransaction_components m client (m.makePaymentTx dest)
    cases r3 with
    | ok r =>
      exact ⟨.ok r, m3, by simp [Minion.run, hcsr, hcae, hcb, hr3, Minion.makeTx,
        Account.incrementSequenceNumber]⟩
    | error e2 =>
      exact ⟨.error (.submitting e2), m3, by simp [Minion.run, hcsr, hcae, hcb, hr3,
        Minion.makeTx, Account.incrementSequenceNumber]⟩

/-- Witness for C6: at a never-seen destination, the run submits the
CreateAccount transaction, whose sequence is the cached 5 plus one. -/
theorem transaction_strategy_witness :
    (∃ res m', sampleMinion.run sampleClient "GDEST"
      = (res, m', [Event.probeAccount "GDEST",
          Event.submitCall (sampleMinion.makeCreateTx "GDEST")]))
    ∧ (sampleMinion.makeCreateTx "GDEST").seqNum = 6 := by
  have h := transaction_strategy sampleMinion "GDEST" 100000000000
    (by decide) rfl (by decide) (by decide)
  refine ⟨h.1 sampleClient notFoundErr rfl rfl, ?_⟩
  rw [h.2.2.2.2.2.1]
  decide

/-- Helper: the sequence-readiness step performs either no ledger call or
exactly the one sequence fetch. -/
theorem checkSequenceRefresh_events (m : Minion) (client : NetworkClient) :
    (CheckSequenceRefresh m client).2 = []
    ∨ (CheckSequenceRefresh m client).2 = [Event.fetchSequence m.account.accountID] := by
  by_cases hc : m.account.sequence ≠ 0 ∧ m.forceRefreshSequence = false
  · left
    unfold CheckSequenceRefresh
    rw [if_pos hc]
  · right
    unfold CheckSequenceRefresh Account.refreshSequenceNumber Account.getAccountID
    rw [if_neg hc]
    cases hga : client.getAccountDetails m.account.accountID with
    | error e => simp
    | ok d => simp

/-- Helper: the three possible outcomes of the contract flow, with the ledger
calls each performs: a failed sequence refresh (fetch only), a failed
simulation (fetch events then the simulate call, no submission), or a
submission (fetch events, then the simulate call, then the one submit call). -/
theorem runContract_shape (m : Minion) (client : NetworkClient) (dest : String) :
    ∃ evs1,
      (evs1 = [] ∨ evs1 = [Event.fetchSequence m.account.accountID])
      ∧ ((∃ e, m.runContract client dest = (.error (.checkingMinionSeq e), m, evs1))
        ∨ (∃ e m1, m.runContract client dest
            = (.error (.simulationFailed e), m1, evs1 ++ [Event.simulateCall dest]))
        ∨ (∃ r m3 tx, m.runContract client dest
              = (r, m3, evs1 ++ [Event.simulateCall dest] ++ [Event.submitCall tx])
            ∧ ∀ eb, r ≠ .error (.checkBalance eb))) := by
  rcases h1 : CheckSequenceRefresh m client with ⟨r1, evs1⟩
  have hevs1 : evs1 = [] ∨ evs1 = [Event.fetchSequence m.account.accountID] := by
    have h := checkSequenceRefresh_events m client
    rw [h1] at h
    exact h
  refine ⟨evs1, hevs1, ?_⟩
  cases r1 with
  | error e => exact Or.inl ⟨e, by simp [Minion.runContract, h1]⟩
  | ok m1 =>
    cases hsim : client.simulateTransaction dest with
    | error e =>
      exact Or.inr (Or.inl ⟨e, m1, by simp [Minion.runContract, h1, hsim]⟩)
    | ok sim =>
      obtain ⟨r3, m3, hr3⟩ := submitTransaction_components
        { m1 with account := { m1.account with sequence := m1.account.sequence + 1 } }
        client (m1.makeContractTx dest sim)
      cases r3 with
      | ok r =>
        refine Or.inr (Or.inr ⟨.ok r, m3, m1.makeContractTx dest sim, ?_, by simp⟩)
        simp [Minion.runContract, h1, hsim, hr3]
      | error e =>
        refine Or.inr (Or.inr ⟨.error (.submitting e), m3, m1.makeContractTx dest sim,
          ?_, by simp⟩)
        simp [Minion.runContract, h1, hsim, hr3]

/-- Helper: the ledger calls of the classic flow: fetch events only, fetch
events then the probe, or fetch events, the probe and the one submit call.  No
simulate call ever appears. -/
theorem run_shape (m : Minion) (client : NetworkClient) (dest : String) :
    ∃ evs1,
      (evs1 = [] ∨ evs1 = [Event.fetchSequence m.account.accountID])
      ∧ ((m.run client dest).2.2 = evs1
        ∨ (m.run client dest).2.2 = evs1 ++ [Event.probeAccount dest]
        ∨ ∃ tx, (m.run client dest).2.2
            = evs1 ++ [Event.probeAccount dest] ++ [Event.submitCall tx]) := by
  rcases h1 : CheckSequenceRefresh m client with ⟨r1, evs1⟩
  have hevs1 : evs1 = [] ∨ evs1 = [Event.fetchSequence m.account.accountID] := by
    have h := checkSequenceRefresh_events m client
    rw [h1] at h
    exact h
  refine ⟨evs1, hevs1, ?_⟩
  cases r1 with
  | error e => exact Or.inl (by simp [Minion.run, h1])
  | ok m1 =>
    obtain ⟨r2, hr2⟩ : ∃ r2, CheckAccountExists client dest
        = (r2, [Event.probeAccount dest]) := ⟨_, rfl⟩
    cases r2 with
    | error e => exact Or.inr (Or.inl (by simp [Minion.run, h1, hr2]))
    | ok p =>
      obtain ⟨destExists, balance⟩ := p
      cases hcb : m1.checkBalance balance with
      | some e => exact Or.inr (Or.inl (by simp [Minion.run, h1, hr2, hcb]))
      | none =>
        obtain ⟨r3, m3, hr3⟩ := submitTransaction_components
          { m1 with account := (m1.account.incrementSequenceNumber).2 } client
          (m1.makeTx dest destExists)
        cases r3 with
        | ok r =>
          exact Or.inr (Or.inr ⟨m1.makeTx dest destExists,
            by simp [Minion.run, h1, hr2, hcb, hr3]⟩)
        | error e =>
          exact Or.inr (Or.inr ⟨m1.makeTx dest destExists,
            by simp [Minion.run, h1, hr2, hcb, hr3]⟩)

/-- C5: kind-based strategy selection.  The contract flow (modelled from the
spec, see runContract) never performs the destination existence/balance probe
and never fails through the already-funded gate; whenever it submits, the
simulate call was performed before the submit call.  The classic flow never
performs a simulate call. -/
theorem contract_strategy_selection (m : Minion) (client : NetworkClient)
    (dest : String) :
    (∀ a, Event.probeAccount a ∉ (m.runContract client dest).2.2)
    ∧ (∀ eb, (m.runContract client dest).1 ≠ .error (.checkBalance eb))
    ∧ (∀ tx, Event.submitCall tx ∈ (m.runContract client dest).2.2 →
        ∃ l1 l2, (m.runContract client dest).2.2 = l1 ++ Event.simulateCall dest :: l2
          ∧ ∀ tx', Event.submitCall tx' ∉ l1)
    ∧ (∀ a, Event.simulateCall a ∉ (m.run client dest).2.2) := by
  obtain ⟨evs1, hevs1, hcases⟩ := runContract_shape m client dest
  refine ⟨?_, ?_, ?_, ?_⟩
  · intro a
    rcases hcases with ⟨e, heq⟩ | ⟨e, m1, heq⟩ | ⟨r, m3, tx, heq, -⟩ <;>
      rw [heq] <;> rcases hevs1 with h | h <;> subst h <;> simp
  · intro eb
    rcases hcases with ⟨e, heq⟩ | ⟨e, m1, heq⟩ | ⟨r, m3, tx, heq, hr⟩ <;> rw [heq]
    · simp
    · simp
    · exact hr eb
  · intro tx htx
    rcases hcases with ⟨e, heq⟩ | ⟨e, m1, heq⟩ | ⟨r, m3, tx2, heq, -⟩
    · rw [heq] at htx
      rcases hevs1 with h | h <;> subst h <;> simp at htx
    · rw [heq] at htx
      rcases hevs1 with h | h <;> subst h <;> simp at htx
    · refine ⟨evs1, [Event.submitCall tx2], ?_, ?_⟩
      · rw [heq]
        simp
      · intro tx'
        rcases hevs1 with h | h <;> subst h <;> simp
  · intro a
    obtain ⟨evs1', hevs1', hrun⟩ := run_shape m client dest
    rcases hrun with heq | heq | ⟨tx, heq⟩ <;>
      rw [heq] <;> rcases hevs1' with h | h <;> subst h <;> simp

/-- Ledger oracle with a working simulation backend. -/
def simClient : NetworkClient :=
  { getAccountDetails := fun _ => .ok { sequence := 20, balance := "0" }
    submitTransaction := fun _ => none
    simulateTransaction := fun _ =>
      .ok { transactionDataXDR := "SOROBANDATA", minResourceFee := 100000,
            authXDR := [], resultXDR := "" } }

/-- Witness for C5: the contract flow at a concrete destination performs no
probe, and the classic flow at a concrete destination performs no simulate
call. -/
theorem contract_strategy_selection_witness :
    Event.probeAccount "CDEST" ∉ (sampleMinion.runContract simClient "CDEST").2.2
    ∧ Event.simulateCall "GDEST" ∉ (sampleMinion.run sampleClient "GDEST").2.2 :=
  ⟨(contract_strategy_selection sampleMinion simClient "CDEST").1 "CDEST",
   (contract_strategy_selection sampleMinion sampleClient "GDEST").2.2.2 "GDEST"⟩

/-- Helper: with no minions left to create, bootstrap terminates at once. -/
theorem createMinionAccounts_done (batchSize retriesAllowed created retryCount : Nat)
    (trace : List BootStep) :
    createMinionAccounts batchSize retriesAllowed 0 created retryCount trace
      = (created, none) := by
  unfold createMinionAccounts
  simp

/-- Helper: a successful batch submission creates min(batchSize, remaining)
accounts, resets the retry counter and continues. -/
theorem createMinionAccounts_success (batchSize retriesAllowed n created retryCount : Nat)
    (rest : List BootStep) (hn : n ≠ 0) :
    createMinionAccounts batchSize retriesAllowed n created retryCount
        (BootStep.submitRes none :: rest)
      = createMinionAccounts batchSize retriesAllowed
          (n - min batchSize n) (created + min batchSize n) 0 rest := by
  conv_lhs => unfold createMinionAccounts
  rw [if_neg hn]

/-- Helper: a timeout-classified submission failure with retries left retries
the same batch, counting one more retry. -/
theorem createMinionAccounts_timeout_retry
    (batchSize retriesAllowed n created retryCount : Nat) (e : NetworkError)
    (rest : List BootStep) (hn : n ≠ 0) (ht : e.timeout = true)
    (hr : retryCount < retriesAllowed) :
    createMinionAccounts batchSize retriesAllowed n created retryCount
        (BootStep.submitRes (some (.network e)) :: rest)
      = createMinionAccounts batchSize retriesAllowed n created (retryCount + 1) rest := by
  conv_lhs => unfold createMinionAccounts
  rw [if_neg hn]
  simp [ht, Nat.not_le.mpr hr]

/-- Helper: a timeout-classified submission failure with retries exhausted
aborts, returning the accounts created so far. -/
theorem createMinionAccounts_timeout_abort
    (batchSize retriesAllowed n created retryCount : Nat) (e : NetworkError)
    (rest : List BootStep) (hn : n ≠ 0) (ht : e.timeout = true)
    (hr : retriesAllowed ≤ retryCount) :
    createMinionAccounts batchSize retriesAllowed n created retryCount
        (BootStep.submitRes (some (.network e)) :: rest)
      = (created, some (.retriesExhausted (.network e))) := by
  conv_lhs => unfold createMinionAccounts
  rw [if_neg hn]
  simp [ht, hr]

/-- Helper: a submission failure not classified as a timeout aborts at once,
returning the accounts created so far. -/
theorem createMinionAccounts_other_failure
    (batchSize retriesAllowed n created retryCount : Nat) (e : NetworkError)
    (rest : List BootStep) (hn : n ≠ 0) (ht : e.timeout = false) :
    createMinionAccounts batchSize retriesAllowed n created retryCount
        (BootStep.submitRes (some (.network e)) :: rest)
      = (created, some (.submitting (.network e))) := by
  conv_lhs => unfold createMinionAccounts
  rw [if_neg hn]
  simp [ht]

/-- Helper: on an all-success trace long enough to cover the remaining
accounts, bootstrap creates exactly the remaining number of accounts. -/
theorem createMinionAccounts_all_success (batchSize retriesAllowed : Nat) :
    ∀ (trace : List BootStep) (n created : Nat),
      (∀ s ∈ trace, s = BootStep.submitRes none) →
      n ≤ batchSize * trace.length →
      createMinionAccounts batchSize retriesAllowed n created 0 trace
        = (created + n, none) := by
  intro trace
  induction trace with
  | nil =>
    intro n created hall hn
    have hn0 : n = 0 := by simpa using hn
    subst hn0
    simpa using createMinionAccounts_done batchSize retriesAllowed created 0 []
  | cons s rest ih =>
    intro n created hall hn
    have hs : s = BootStep.submitRes none := hall s (List.mem_cons_self s rest)
    subst hs
    by_cases hn0 : n = 0
    · subst hn0
      simpa using createMinionAccounts_done batchSize retriesAllowed created 0 _
    · have hrest : ∀ s ∈ rest, s = BootStep.submitRes none :=
        fun s hs => hall s (List.mem_cons_of_mem _ hs)
      rcases Nat.le_total batchSize n with hle | hle
      · rw [createMinionAccounts_success batchSize retriesAllowed n created 0 rest hn0,
          Nat.min_eq_left hle]
        have harith : n - batchSize ≤ batchSize * rest.length := by
          simp only [List.length_cons, Nat.mul_add, Nat.mul_one] at hn
          omega
        rw [ih (n - batchSize) (created + batchSize) hrest harith]
        have hsum : created + batchSize + (n - batchSize) = created + n := by omega
        rw [hsum]
      · rw [createMinionAccounts_success batchSize retriesAllowed n created 0 rest hn0,
          Nat.min_eq_right hle, Nat.sub_self]
        rw [ih 0 (created + n) hrest (Nat.zero_le _)]
        simp

/-- C7: bootstrap retry and partial-failure behavior.  On an all-success
environment, bootstrap creates exactly the desired number of accounts (in
batches of min(batchSize, remaining)).  A Timeout-classified batch-submission
failure retries the same batch while at most retriesAllowed retries have been
used, and aborts once a timeout arrives with the retry budget spent; any
non-timeout submission failure aborts at once.  Every abort returns the
accounts created by the prior successful batches together with an error - in
particular, a failure in batch two of a bootstrap whose first batch succeeded
returns exactly batch one's (nonzero) account count, never an empty pool. -/
theorem bootstrap_retry_behavior (batchSize retriesAllowed : Nat)
    (hb : 0 < batchSize) :
    (∀ (trace : List BootStep) (n created : Nat),
      (∀ s ∈ trace, s = BootStep.submitRes none) →
      n ≤ batchSize * trace.length →
      createMinionAccounts batchSize retriesAllowed n created 0 trace
        = (created + n, none))
    ∧ (∀ (e : NetworkError) (rest : List BootStep) (n created retryCount : Nat),
      n ≠ 0 → e.timeout = true → retryCount < retriesAllowed →
      createMinionAccounts batchSize retriesAllowed n created retryCount
          (BootStep.submitRes (some (.network e)) :: rest)
        = createMinionAccounts batchSize retriesAllowed n created (retryCount + 1) rest)
    ∧ (∀ (e : NetworkError) (rest : List BootStep) (n created retryCount : Nat),
      n ≠ 0 → e.timeout = true → retriesAllowed ≤ retryCount →
      createMinionAccounts batchSize retriesAllowed n created retryCount
          (BootStep.submitRes (some (.network e)) :: rest)
        = (created, some (.retriesExhausted (.network e))))
    ∧ (∀ (e : NetworkError) (rest : List BootStep) (n created retryCount : Nat),
      n ≠ 0 → e.timeout = false →
      createMinionAccounts batchSize retriesAllowed n created retryCount
          (BootStep.submitRes (some (.network e)) :: rest)
        = (created, some (.submitting (.network e))))
    ∧ (∀ (e : NetworkError) (rest : List BootStep) (n : Nat),
      batchSize < n → e.timeout = false →
      createMinionAccounts batchSize retriesAllowed n 0 0
          (BootStep.submitRes none :: BootStep.submitRes (some (.network e)) :: rest)
        = (batchSize, some (.submitting (.network e)))
      ∧ batchSize ≠ 0) := by
  refine ⟨createMinionAccounts_all_success batchSize retriesAllowed, ?_, ?_, ?_, ?_⟩
  · intro e rest n created retryCount hn ht hr
    exact createMinionAccounts_timeout_retry batchSize retriesAllowed n created
      retryCount e rest hn ht hr
  · intro e rest n created retryCount hn ht hr
    exact createMinionAccounts_timeout_abort batchSize retriesAllowed n created
      retryCount e rest hn ht hr
  · intro e rest n created retryCount hn ht
    exact createMinionAccounts_other_failure batchSize retriesAllowed n created
      retryCount e rest hn ht
  · intro e rest n hlt ht
    have hn0 : n ≠ 0 := by omega
    rw [createMinionAccounts_success batchSize retriesAllowed n 0 0 _ hn0,
      Nat.min_eq_left (Nat.le_of_lt hlt)]
    have hn1 : n - batchSize ≠ 0 := by omega
    rw [createMinionAccounts_other_failure batchSize retriesAllowed (n - batchSize)
      (0 + batchSize) 0 e rest hn1 ht]
    exact ⟨by rw [Nat.zero_add], by omega⟩

/-- A timeout-classified network error, as the RPC and Horizon clients
classify congestion. -/
def timeoutErr : NetworkError :=
  { notFound := false, badSequence := false, timeout := true, resultString := none }

/-- Witness for C7: five accounts in batches of two with one retry allowed:
an all-success trace creates all five; a first-batch timeout is retried and
bootstrap still completes; a non-timeout failure in batch two returns exactly
the two accounts of batch one with an error. -/
theorem bootstrap_retry_behavior_witness :
    createMinionAccounts 2 1 5 0 0
        [BootStep.submitRes none, BootStep.submitRes none, BootStep.submitRes none]
      = (5, none)
    ∧ createMinionAccounts 2 1 5 0 0
        (BootStep.submitRes (some (.network timeoutErr))
          :: [BootStep.submitRes none, BootStep.submitRes none, BootStep.submitRes none])
      = (5, none)
    ∧ createMinionAccounts 2 1 5 0 0
        [BootStep.submitRes none, BootStep.submitRes (some (.network notFoundErr))]
      = (2, some (.submitting (.network notFoundErr))) := by
  have h := bootstrap_retry_behavior 2 1 (by decide)
  refine ⟨?_, ?_, ?_⟩
  · exact h.1 [BootStep.submitRes none, BootStep.submitRes none, BootStep.submitRes none]
      5 0 (by decide) (by decide)
  · rw [h.2.1 timeoutErr
      [BootStep.submitRes none, BootStep.submitRes none, BootStep.submitRes none]
      5 0 0 (by decide) rfl (by decide)]
    exact h.1 [BootStep.submitRes none, BootStep.submitRes none, BootStep.submitRes none]
      5 0 (by decide) (by decide)
  · exact ((h.2.2.2.2 notFoundErr [] 5 (by decide) rfl).1)

/-- Helper: the poll loop is determined by the first stopping response (client
error, SUCCESS or FAILED): none of them within the deadline budget is the
timeout-classified error, a client error is a plain error, SUCCESS is success,
FAILED is an error carrying that response's result XDR. -/
theorem pollTransactionStatus_characterization (polls : List RpcGetTxResponse) :
    pollTransactionStatus polls =
      match pollTerminal polls with
      | none =>
        some { notFound := false, timeout := true, resultXDR := "",
               diagnosticEventsXDR := [] }
      | some .clientErr =>
        some { notFound := false, timeout := false, resultXDR := "",
               diagnosticEventsXDR := [] }
      | some (.status s rx dx) =>
        if s = transactionStatusSuccess then none
        else some { notFound := false, timeout := false, resultXDR := rx,
                    diagnosticEventsXDR := dx } := by
  induction polls with
  | nil => rfl
  | cons r rest ih =>
    cases r with
    | clientErr =>
      simp [pollTransactionStatus, pollTerminal]
    | status s rx dx =>
      by_cases hs : s = transactionStatusSuccess
      · simp [pollTransactionStatus, pollTerminal, hs, transactionStatusSuccess,
          transactionStatusFailed]
      · by_cases hf : s = transactionStatusFailed
        · simp [pollTransactionStatus, pollTerminal, hs, hf, transactionStatusSuccess,
            transactionStatusFailed]
        · have hfind : pollTerminal (RpcGetTxResponse.status s rx dx :: rest)
              = pollTerminal rest := by
            unfold pollTerminal
            rw [List.find?_cons_of_neg]
            simp [hs, hf]
          rw [hfind, ← ih]
          simp [pollTransactionStatus, hs, hf]

/-- C8: result classification of the asynchronous RPC backend's submit.  The
submit returns nil exactly when the send was accepted and the poll loop reached
the SUCCESS terminal state within the deadline budget.  An immediate rejection
(status ERROR) and a FAILED terminal state both return a NetworkError that is
not timeout-classified and carries the raw result XDR of the rejection or
failure.  If the deadline budget is exhausted before any terminal state, the
returned NetworkError is timeout-classified - and IsTimeout is true on no other
outcome. -/
theorem rpc_submit_classification (send : RpcSendResult)
    (polls : List RpcGetTxResponse) :
    (rpcSubmitTransaction send polls = none ↔
      (∃ s ex dx h, send = .response s ex dx h ∧ s ≠ statusError)
      ∧ ∃ rx dx2, pollTerminal polls
          = some (.status transactionStatusSuccess rx dx2))
    ∧ (∀ ex dx h, rpcSubmitTransaction (.response statusError ex dx h) polls
        = some { notFound := false, timeout := false, resultXDR := ex,
                 diagnosticEventsXDR := dx })
    ∧ (∀ s ex dx h rx dx2, s ≠ statusError →
        pollTerminal polls = some (.status transactionStatusFailed rx dx2) →
        rpcSubmitTransaction (.response s ex dx h) polls
          = some { notFound := false, timeout := false, resultXDR := rx,
                   diagnosticEventsXDR := dx2 })
    ∧ (∀ s ex dx h, s ≠ statusError → pollTerminal polls = none →
        rpcSubmitTransaction (.response s ex dx h) polls
          = some { notFound := false, timeout := true, resultXDR := "",
                   diagnosticEventsXDR := [] })
    ∧ (∀ e, rpcSubmitTransaction send polls = some e →
        (e.isTimeout = true ↔
          (∃ s ex dx h, send = .response s ex dx h ∧ s ≠ statusError)
          ∧ pollTerminal polls = none)) := by
  have hpoll := pollTransactionStatus_characterization polls
  refine ⟨?_, ?_, ?_, ?_, ?_⟩
  · constructor
    · intro hnone
      cases send with
      | sendErr => simp [rpcSubmitTransaction] at hnone
      | response s ex dx h =>
        by_cases hs : s = statusError
        · subst hs
          have hred : rpcSubmitTransaction (.response statusError ex dx h) polls
              = some { notFound := false, timeout := false, resultXDR := ex,
                       diagnosticEventsXDR := dx } := by
            rw [rpcSubmitTransaction]
            simp
          rw [hred] at hnone
          exact Option.noConfusion hnone
        · rw [rpcSubmitTransaction, if_neg hs, hpoll] at hnone
          refine ⟨⟨s, ex, dx, h, rfl, hs⟩, ?_⟩
          revert hnone
          cases ht : pollTerminal polls with
          | none => intro hnone; simp at hnone
          | some r =>
            cases r with
            | clientErr => intro hnone; simp at hnone
            | status s2 rx dx2 =>
              intro hnone
              by_cases hs2 : s2 = transactionStatusSuccess
              · exact ⟨rx, dx2, by rw [hs2]⟩
              · simp [hs2] at hnone
    · rintro ⟨⟨s, ex, dx, h, hsend, hs⟩, rx, dx2, ht⟩
      subst hsend
      rw [rpcSubmitTransaction, if_neg hs, hpoll, ht]
      simp
  · intro ex dx h
    rw [rpcSubmitTransaction]
    simp
  · intro s ex dx h rx dx2 hs ht
    rw [rpcSubmitTransaction, if_neg hs, hpoll, ht]
    simp [transactionStatusSuccess, transactionStatusFailed]
  · intro s ex dx h hs ht
    rw [rpcSubmitTransaction, if_neg hs, hpoll, ht]
  · intro e he
    cases send with
    | sendErr =>
      rw [rpcSubmitTransaction] at he
      cases Option.some.inj he
      simp [RpcNetworkError.isTimeout]
    | response s ex dx h =>
      by_cases hs : s = statusError
      · subst hs
        have hred : rpcSubmitTransaction (.response statusError ex dx h) polls
            = some { notFound := false, timeout := false, resultXDR := ex,
                     diagnosticEventsXDR := dx } := by
          rw [rpcSubmitTransaction]
          simp
        rw [hred] at he
        cases Option.some.inj he
        constructor
        · intro hfalse
          simp [RpcNetworkError.isTimeout] at hfalse
        · rintro ⟨⟨s2, ex2, dx2, h2, hsend, hs2⟩, -⟩
          injection hsend with h1 h2 h3 h4
          subst h1
          exact absurd rfl hs2
      · rw [rpcSubmitTransaction, if_neg hs, hpoll] at he
        revert he
        cases ht : pollTerminal polls with
        | none =>
          intro he
          cases Option.some.inj he
          constructor
          · intro htrue
            exact ⟨⟨s, ex, dx, h, rfl, hs⟩, rfl⟩
          · intro hconj
            rfl
        | some r =>
          cases r with
          | clientErr =>
            intro he
            cases Option.some.inj he
            constructor
            · intro hfalse
              simp [RpcNetworkError.isTimeout] at hfalse
            · rintro ⟨-, hnone⟩
              exact Option.noConfusion hnone
          | status s2 rx dx2 =>
            intro he
            by_cases hs2 : s2 = transactionStatusSuccess
            · simp [hs2] at he
            · simp only [hs2, ite_false, if_neg, Option.some.injEq] at he
              subst he
              constructor
              · intro hfalse
                simp [RpcNetworkError.isTimeout] at hfalse
              · rintro ⟨-, hnone⟩
                exact Option.noConfusion hnone

/-- Witness for C8: an accepted send that stays pending for two polls and then
reaches SUCCESS returns nil; an immediate rejection carries its result XDR
without a timeout classification; an accepted send whose budget holds only
pending responses returns the timeout-classified error. -/
theorem rpc_submit_classification_witness :
    rpcSubmitTransaction (.response "PENDING" "" [] "h")
        [.status "NOT_FOUND" "" [], .status "NOT_FOUND" "" [],
         .status "SUCCESS" "RES" []]
      = none
    ∧ rpcSubmitTransaction (.response "ERROR" "REJXDR" ["d1"] "h") []
      = some { notFound := false, timeout := false, resultXDR := "REJXDR",
               diagnosticEventsXDR := ["d1"] }
    ∧ rpcSubmitTransaction (.response "PENDING" "" [] "h")
        [.status "NOT_FOUND" "" [], .status "NOT_FOUND" "" []]
      = some { notFound := false, timeout := true, resultXDR := "",
               diagnosticEventsXDR := [] } := by
  refine ⟨?_, ?_, ?_⟩
  · exact (rpc_submit_classification (.response "PENDING" "" [] "h")
      [.status "NOT_FOUND" "" [], .status "NOT_FOUND" "" [],
       .status "SUCCESS" "RES" []]).1.mpr
      ⟨⟨"PENDING", "", [], "h", rfl, by decide⟩, "RES", [], by decide⟩
  · exact (rpc_submit_classification (.response "ERROR" "REJXDR" ["d1"] "h") []).2.1
      "REJXDR" ["d1"] "h"
  · exact (rpc_submit_classification (.response "PENDING" "" [] "h")
      [.status "NOT_FOUND" "" [], .status "NOT_FOUND" "" []]).2.2.2.1
      "PENDING" "" [] "h" (by decide) (by decide)

end Friendbot
